import Mathlib

/-!
Verification of the WeWork Notify integration core (`custom_components/wework_notify`).

The Python source is shallowly embedded: Python `str` values are Lean `String`s
(with `String.data : List Char` used for the character-level operations
`str.strip`, `str.split("|")` and `"|".join`), Python `dict` payloads become
association lists over a small JSON value type, `None`-able values become
`Option`, raised `WeWorkError`s become `Except` errors, and the aiohttp network
is an oracle `Env` handing out one reply per call, with per-client call
counters recording how many network requests were issued.
-/

/-! ## Python string primitives

`stripChars` models `s.strip()` (drop whitespace from both ends; Python uses
Unicode whitespace, the source only ever meets ASCII whitespace, which
`Char.isWhitespace` covers). -/

def stripChars (s : List Char) : List Char :=
  ((s.dropWhile Char.isWhitespace).reverse.dropWhile Char.isWhitespace).reverse

/-- Python `s.strip()`. -/
def pyStrip (s : String) : String :=
  String.mk (stripChars s.data)

/-- Python `s.split("|")`: `List.splitOn` has exactly Python's semantics for
a one-character separator (split at every occurrence, keep empty fragments,
`"".split("|") = [""]`). -/
def pySplit (s : String) : List String :=
  (s.data.splitOn '|').map String.mk

/-- Python `"|".join(parts)`. -/
def pyJoin (parts : List String) : String :=
  String.mk (List.intercalate ['|'] (parts.map String.data))

/-- Python truthiness of an optional string (`None` and `""` are falsy). -/
def pyTruthyStrOpt : Option String → Bool
  | none => false
  | some s => s ≠ ""

/-- Python truthiness of an optional integer (`None` and `0` are falsy);
this is exactly the `if errcode:` test applied to `result.get("errcode")`. -/
def pyTruthyIntOpt : Option Int → Bool
  | none => false
  | some n => n ≠ 0

/-- Python `a or b` on two optional strings (used by `_merge_recipient`'s
`return override or default`). -/
def pyOrStr : Option String → Option String → Option String
  | some s, b => if s ≠ "" then some s else b
  | none, b => b

/-! ## Constants (`const.py`) -/

def MESSAGE_TYPE_TEXT : String := "text"
def MESSAGE_TYPE_MARKDOWN : String := "markdown"
def MESSAGE_TYPE_IMAGE : String := "image"

def SUPPORTED_MESSAGE_TYPES : List String :=
  [MESSAGE_TYPE_TEXT, MESSAGE_TYPE_MARKDOWN, MESSAGE_TYPE_IMAGE]

def TOKEN_RETRYABLE_ERROR_CODES : List Int := [40014, 42001, 40001]

/-! ## Data model -/

/-- `WeWorkError(message, errcode=...)`. -/
structure WeWorkError where
  message : String
  errcode : Option Int := none
deriving Repr, DecidableEq

/-- The fields of the service-call `data` dict that `api.py` reads
(each via `data.get(...)`, hence `Option`). -/
structure SendData where
  message_type : Option String := none
  message : Option String := none
  to_user : Option String := none
  to_party : Option String := none
  to_tag : Option String := none
  image_media_id : Option String := none
  image_base64 : Option String := none
  image_md5 : Option String := none
  mentioned_list : Option String := none
  mentioned_mobile_list : Option String := none
deriving Repr, DecidableEq

/-- The client-level default recipients dict (`self._defaults`). -/
structure AppDefaults where
  to_user : Option String := none
  to_party : Option String := none
  to_tag : Option String := none
deriving Repr, DecidableEq

/-- Scalar JSON values appearing inside the inner message object. -/
inductive JScalar where
  | str (s : String)
  | int (n : Int)
  | strList (l : List String)
deriving Repr, DecidableEq

/-- JSON values appearing at the top level of a payload. -/
inductive JVal where
  | str (s : String)
  | int (n : Int)
  | obj (fields : List (String × JScalar))
deriving Repr, DecidableEq

/-- A request payload: an ordered JSON object, mirroring the insertion order
of the Python dict. -/
abbrev Payload := List (String × JVal)

/-! ## Payload helpers (`_merge_recipient`, `_split_optional`) -/

/-- The body of `_merge_recipient`'s dedup loop:
`part = part.strip(); if part and part not in existing: existing.append(part)`. -/
def merge_step (existing : List String) (part : String) : List String :=
  if pyStrip part ≠ "" ∧ pyStrip part ∉ existing then existing ++ [pyStrip part]
  else existing

/-- `_merge_recipient(override, default)` from `api.py`. -/
def merge_recipient (override default : Option String) : Option String :=
  let override := override.map pyStrip
  let default := default.map pyStrip
  if pyTruthyStrOpt override = true ∧ pyTruthyStrOpt default = true then
    let parts := pySplit (override.getD "") ++ pySplit (default.getD "")
    some (pyJoin (parts.foldl merge_step []))
  else
    pyOrStr override default

/-- `_split_optional(value)` from `api.py`. -/
def split_optional (value : Option String) : Option (List String) :=
  if pyTruthyStrOpt value = false then none
  else some (((pySplit (value.getD "")).map pyStrip).filter (fun t => t ≠ ""))

/-! ## Payload builders -/

/-- `WeWorkAppClient._build_payload` (it never awaits, hence pure). -/
def app_build_payload (agent_id : Int) (defaults : AppDefaults)
    (message_type : String) (data : SendData) : Except WeWorkError Payload :=
  let message := data.message
  if (message_type = MESSAGE_TYPE_TEXT ∨ message_type = MESSAGE_TYPE_MARKDOWN)
      ∧ pyTruthyStrOpt message = false then
    .error { message := "Message content is required for text or markdown messages" }
  else
    let to_user := merge_recipient data.to_user defaults.to_user
    let to_party := merge_recipient data.to_party defaults.to_party
    let to_tag := merge_recipient data.to_tag defaults.to_tag
    if pyTruthyStrOpt to_user = false ∧ pyTruthyStrOpt to_party = false
        ∧ pyTruthyStrOpt to_tag = false then
      .error { message := "At least one recipient must be provided for the application message" }
    else
      let payload : Payload :=
        [("agentid", .int agent_id), ("msgtype", .str message_type), ("safe", .int 0)]
      let payload := payload ++
        (if pyTruthyStrOpt to_user = true then [("touser", .str (to_user.getD ""))] else [])
      let payload := payload ++
        (if pyTruthyStrOpt to_party = true then [("toparty", .str (to_party.getD ""))] else [])
      let payload := payload ++
        (if pyTruthyStrOpt to_tag = true then [("totag", .str (to_tag.getD ""))] else [])
      if message_type = MESSAGE_TYPE_TEXT then
        .ok (payload ++ [(MESSAGE_TYPE_TEXT, .obj [("content", .str (message.getD ""))])])
      else if message_type = MESSAGE_TYPE_MARKDOWN then
        .ok (payload ++ [(MESSAGE_TYPE_MARKDOWN, .obj [("content", .str (message.getD ""))])])
      else if message_type = MESSAGE_TYPE_IMAGE then
        if pyTruthyStrOpt data.image_media_id = false then
          .error { message := "image_media_id is required for image messages on applications" }
        else
          .ok (payload ++
            [(MESSAGE_TYPE_IMAGE, .obj [("media_id", .str (data.image_media_id.getD ""))])])
      else
        .ok payload

/-- `WeWorkBotClient._build_payload`. -/
def bot_build_payload (message_type : String) (data : SendData) :
    Except WeWorkError Payload :=
  let message := data.message
  if message_type = MESSAGE_TYPE_TEXT then
    if pyTruthyStrOpt message = false then
      .error { message := "Message content is required for text messages" }
    else
      let item : List (String × JScalar) := [("content", .str (message.getD ""))]
      let mentioned_list := split_optional data.mentioned_list
      let mentioned_mobile_list := split_optional data.mentioned_mobile_list
      let item := item ++
        (match mentioned_list with
          | some l => if l ≠ [] then [("mentioned_list", .strList l)] else []
          | none => [])
      let item := item ++
        (match mentioned_mobile_list with
          | some l => if l ≠ [] then [("mentioned_mobile_list", .strList l)] else []
          | none => [])
      .ok [("msgtype", .str message_type), (message_type, .obj item)]
  else if message_type = MESSAGE_TYPE_MARKDOWN then
    if pyTruthyStrOpt message = false then
      .error { message := "Message content is required for markdown messages" }
    else
      .ok [("msgtype", .str message_type),
           (message_type, .obj [("content", .str (message.getD ""))])]
  else if message_type = MESSAGE_TYPE_IMAGE then
    if pyTruthyStrOpt data.image_base64 = false ∨ pyTruthyStrOpt data.image_md5 = false then
      .error { message := "image_base64 and image_md5 are required for image messages on robots" }
    else
      .ok [("msgtype", .str message_type),
           (message_type, .obj [("base64", .str (data.image_base64.getD "")),
                                ("md5", .str (data.image_md5.getD ""))])]
  else
    .error { message := "Unsupported message type: " ++ message_type }

/-! ## Network model

`Env` is an oracle: the reply to the `n`-th token-endpoint request and the
`n`-th send-endpoint request issued by this client.  `World` carries the
client's mutable token cache (`self._token`, `self._token_expire_time`) and
the two per-endpoint request counters; a network call is issued exactly when
the corresponding counter is bumped.  `time.monotonic()` is a parameter
`now : Int` (all readings within one operation coincide). -/

/-- The decoded JSON of a `gettoken` response (fields read via `result.get`). -/
structure TokenResponse where
  errcode : Option Int := none
  errmsg : Option String := none
  access_token : Option String := none
  expires_in : Option Int := none
deriving Repr, DecidableEq

/-- The decoded JSON of a `message/send` or `webhook/send` response. -/
structure SendResponse where
  errcode : Option Int := none
  errmsg : Option String := none
deriving Repr, DecidableEq

/-- A network interaction either raises `aiohttp.ClientError` or yields JSON. -/
inductive NetReply (α : Type) where
  | transport (msg : String)
  | resp (r : α)
deriving Repr, DecidableEq

/-- The network oracle. -/
structure Env where
  tokenResp : Nat → NetReply TokenResponse
  sendResp : Nat → NetReply SendResponse

/-- The app client's token cache: `self._token` / `self._token_expire_time`. -/
structure AppState where
  token : Option String := none
  token_expire_time : Int := 0
deriving Repr, DecidableEq

/-- Cache plus counters of network requests issued so far. -/
structure World where
  st : AppState := {}
  tokenCalls : Nat := 0
  sendCalls : Nat := 0
deriving Repr, DecidableEq

/-- The validity check `self._token and time.monotonic() < self._token_expire_time - 30`. -/
def cache_fresh (st : AppState) (now : Int) : Bool :=
  pyTruthyStrOpt st.token && decide (now < st.token_expire_time - 30)

/-- Interpreting one send-endpoint reply: the `errcode = result.get("errcode");
if errcode: raise` logic shared verbatim by `WeWorkAppClient._do_send` and
`WeWorkBotClient.async_send_message`. -/
def handle_send_result : NetReply SendResponse → Except WeWorkError Unit
  | .transport m => .error { message := "Failed to send message: " ++ m }
  | .resp r =>
      if pyTruthyIntOpt r.errcode = true then
        .error { message := "Message send failed: " ++ r.errmsg.getD "unknown error",
                 errcode := r.errcode }
      else
        .ok ()

/-- `WeWorkAppClient._do_send(payload, token)`: one POST to `message/send`. -/
def do_send (env : Env) (_payload : Payload) (_token : String) (w : World) :
    Except WeWorkError Unit × World :=
  (handle_send_result (env.sendResp w.sendCalls), { w with sendCalls := w.sendCalls + 1 })

/-- `WeWorkAppClient._refresh_token(force)`.  The lock body is modelled as the
atomic sequential composition its mutual exclusion guarantees; the in-lock
double check is the leading `if`. -/
def refresh_token (env : Env) (force : Bool) (now : Int) (w : World) :
    Except WeWorkError String × World :=
  if pyTruthyStrOpt w.st.token = true ∧ force = false
      ∧ now < w.st.token_expire_time - 30 then
    (.ok (w.st.token.getD ""), w)
  else
    match env.tokenResp w.tokenCalls with
    | .transport m =>
        (.error { message := "Failed to refresh token: " ++ m },
         { w with tokenCalls := w.tokenCalls + 1 })
    | .resp r =>
        if pyTruthyIntOpt r.errcode = true then
          (.error { message := "Token refresh failed: " ++ r.errmsg.getD "unknown error",
                    errcode := r.errcode },
           { w with tokenCalls := w.tokenCalls + 1 })
        else if pyTruthyStrOpt r.access_token = false then
          (.error { message := "Missing access_token in token response" },
           { w with tokenCalls := w.tokenCalls + 1 })
        else
          (.ok (r.access_token.getD ""),
           { w with st := { token := r.access_token,
                            token_expire_time := now + r.expires_in.getD 7200 },
                    tokenCalls := w.tokenCalls + 1 })

/-- `WeWorkAppClient._ensure_token()`. -/
def ensure_token (env : Env) (now : Int) (w : World) :
    Except WeWorkError String × World :=
  if cache_fresh w.st now = true then
    (.ok (w.st.token.getD ""), w)
  else
    refresh_token env false now w

/-- `err.errcode not in TOKEN_RETRYABLE_ERROR_CODES` (negated). -/
def retryable (errcode : Option Int) : Bool :=
  match errcode with
  | some c => TOKEN_RETRYABLE_ERROR_CODES.contains c
  | none => false

/-- `WeWorkAppClient.async_send_message(data)`. -/
def async_send_message (env : Env) (agent_id : Int) (defaults : AppDefaults)
    (data : SendData) (now : Int) (w : World) : Except WeWorkError Unit × World :=
  let message_type := data.message_type.getD MESSAGE_TYPE_TEXT
  if message_type ∉ SUPPORTED_MESSAGE_TYPES then
    (.error { message := "Unsupported message type: " ++ message_type }, w)
  else
    match app_build_payload agent_id defaults message_type data with
    | .error e => (.error e, w)
    | .ok payload =>
        match ensure_token env now w with
        | (.error e, w1) => (.error e, w1)
        | (.ok token, w1) =>
            match do_send env payload token w1 with
            | (.ok _, w2) => (.ok (), w2)
            | (.error err, w2) =>
                if retryable err.errcode = false then
                  (.error err, w2)
                else
                  match refresh_token env true now w2 with
                  | (.error e, w3) => (.error e, w3)
                  | (.ok token2, w3) => do_send env payload token2 w3

/-- `WeWorkBotClient.async_send_message(data)` (the robot client keeps no
token cache; `World` only contributes the send counter). -/
def bot_send_message (env : Env) (webhook_key : String) (data : SendData)
    (w : World) : Except WeWorkError Unit × World :=
  let message_type := data.message_type.getD MESSAGE_TYPE_TEXT
  if message_type ∉ SUPPORTED_MESSAGE_TYPES then
    (.error { message := "Unsupported message type: " ++ message_type }, w)
  else
    match bot_build_payload message_type data with
    | .error e => (.error e, w)
    | .ok payload => do_send env payload webhook_key w

/-! ## Shared concrete instances for witnesses -/

/-- A network oracle answering every request with an empty JSON object. -/
def envUnit : Env :=
  { tokenResp := fun _ => .resp {}, sendResp := fun _ => .resp {} }

/-- A world whose cache holds token `"TOK"` expiring at instant 100. -/
def wFresh : World :=
  { st := { token := some "TOK", token_expire_time := 100 } }

/-! ## C3: cache hit performs no I/O -/

/-- **C3**: if the cache holds a token and `now < expires_at - 30`, then
`_ensure_token` returns the cached token and leaves the whole world (cache
and both network counters) unchanged; hence a second call within the
validity window issues no network call either. -/
theorem ensure_token_cache_hit (env : Env) (w : World) (now now2 : Int) (t : String)
    (htok : w.st.token = some t) (hne : t ≠ "")
    (h1 : now < w.st.token_expire_time - 30)
    (h2 : now2 < w.st.token_expire_time - 30) :
    ensure_token env now w = (.ok t, w) ∧ ensure_token env now2 w = (.ok t, w) := by
  have hfresh : ∀ m : Int, m < w.st.token_expire_time - 30 → cache_fresh w.st m = true := by
    intro m hm
    simp [cache_fresh, pyTruthyStrOpt, htok, hne, hm]
  constructor
  · simp [ensure_token, hfresh _ h1, htok]
  · simp [ensure_token, hfresh _ h2, htok]

/-- Witness for C3 at a concrete world and two concrete clock readings. -/
theorem ensure_token_cache_hit_witness :
    ensure_token envUnit 0 wFresh = (.ok "TOK", wFresh)
    ∧ ensure_token envUnit 10 wFresh = (.ok "TOK", wFresh) :=
  ensure_token_cache_hit envUnit wFresh 0 10 "TOK" rfl (by decide) (by decide) (by decide)

/-! ## C6: failed refresh leaves the cache untouched -/

/-- **C6**: whenever `_refresh_token` fails (transport error, non-zero
`errcode`, or missing/empty `access_token`), the cached token and expiry are
exactly as before the refresh began; the cache is written only on success. -/
theorem refresh_token_failure_preserves_cache (env : Env) (force : Bool) (now : Int)
    (w w2 : World) (e : WeWorkError)
    (h : refresh_token env force now w = (.error e, w2)) : w2.st = w.st := by
  unfold refresh_token at h
  split at h
  · simp at h
  · split at h
    · simp only [Prod.mk.injEq] at h
      rw [← h.2]
    · split at h
      · simp only [Prod.mk.injEq] at h
        rw [← h.2]
      · split at h
        · simp only [Prod.mk.injEq] at h
          rw [← h.2]
        · simp only [Prod.mk.injEq] at h
          exact absurd h.1 (by simp)

/-- Witness for C6: a concrete failing refresh (provider error 40013). -/
theorem refresh_token_failure_preserves_cache_witness :
    ({ st := { token := some "OLD", token_expire_time := 7 }, tokenCalls := 1,
       sendCalls := 0 } : World).st
      = ({ st := { token := some "OLD", token_expire_time := 7 } } : World).st :=
  refresh_token_failure_preserves_cache
    { tokenResp := fun _ => .resp { errcode := some 40013, errmsg := some "invalid secret" },
      sendResp := fun _ => .resp {} }
    true 0 { st := { token := some "OLD", token_expire_time := 7 } } _
    { message := "Token refresh failed: invalid secret", errcode := some 40013 }
    (by rfl)

/-! ## C8: validation failures precede all network I/O -/

/-- **C8**: in application mode, an unsupported message type or any payload
building failure is returned to the caller with the world unchanged: no token
request and no send request is issued (both counters keep their values). -/
theorem app_send_build_failure_no_network (env : Env) (agent_id : Int)
    (defaults : AppDefaults) (data : SendData) (now : Int) (w : World) :
    (data.message_type.getD MESSAGE_TYPE_TEXT ∉ SUPPORTED_MESSAGE_TYPES →
      async_send_message env agent_id defaults data now w =
        (.error { message :=
            "Unsupported message type: " ++ data.message_type.getD MESSAGE_TYPE_TEXT }, w))
    ∧ (∀ e, data.message_type.getD MESSAGE_TYPE_TEXT ∈ SUPPORTED_MESSAGE_TYPES →
        app_build_payload agent_id defaults (data.message_type.getD MESSAGE_TYPE_TEXT) data
          = .error e →
        async_send_message env agent_id defaults data now w = (.error e, w)) := by
  constructor
  · intro hmt
    simp [async_send_message, hmt]
  · intro e hmt hb
    simp [async_send_message, hmt, hb]

/-- Witness for C8: an empty request (defaults to `text`, no message) fails
validation and leaves the world unchanged; a request with message type
`"video"` fails the supported-type check the same way. -/
theorem app_send_build_failure_no_network_witness :
    async_send_message envUnit 1 {} {} 0 {} =
      (.error { message := "Message content is required for text or markdown messages" },
       ({} : World))
    ∧ async_send_message envUnit 1 {} { message_type := some "video" } 0 {} =
      (.error { message := "Unsupported message type: video" }, ({} : World)) :=
  ⟨(app_send_build_failure_no_network envUnit 1 {} {} 0 {}).2 _ (by decide) (by rfl),
   (app_send_build_failure_no_network envUnit 1 {} { message_type := some "video" } 0 {}).1
     (by decide)⟩

/-! ## C10: absent errcode is success -/

/-- **C10**: a send response whose `errcode` field is absent is treated like
`errcode = 0`: both the application client's `_do_send` and the robot
client's send return success, because the code tests `errcode` for Python
falsiness rather than comparing it to zero. -/
theorem send_errcode_falsy_is_success (env : Env) (payload : Payload)
    (token key : String) (w : World) (r : SendResponse) (data : SendData)
    (hr : env.sendResp w.sendCalls = .resp r)
    (hc : r.errcode = none ∨ r.errcode = some 0)
    (hmt : data.message_type.getD MESSAGE_TYPE_TEXT ∈ SUPPORTED_MESSAGE_TYPES)
    (hb : bot_build_payload (data.message_type.getD MESSAGE_TYPE_TEXT) data = .ok payload) :
    do_send env payload token w = (.ok (), { w with sendCalls := w.sendCalls + 1 })
    ∧ bot_send_message env key data w = (.ok (), { w with sendCalls := w.sendCalls + 1 }) := by
  have hh : handle_send_result (env.sendResp w.sendCalls) = .ok () := by
    rw [hr]
    rcases hc with h | h <;> simp [handle_send_result, h, pyTruthyIntOpt]
  constructor
  · simp [do_send, hh]
  · simp [bot_send_message, hmt, hb, do_send, hh]

/-- Witness for C10: a response `{}` (no `errcode` at all) yields success in
both client modes. -/
theorem send_errcode_falsy_is_success_witness :
    do_send envUnit [("msgtype", .str "text"), ("text", .obj [("content", .str "hi")])]
        "T" {} = (.ok (), { sendCalls := 1 })
    ∧ bot_send_message envUnit "KEY" { message := some "hi" } {} =
        (.ok (), { sendCalls := 1 }) := by
  exact send_errcode_falsy_is_success envUnit
    [("msgtype", .str "text"), ("text", .obj [("content", .str "hi")])]
    "T" "KEY" {} {} { message := some "hi" } rfl (.inl rfl) (by decide) (by rfl)

/-! ## C2: token refresh fetch behaviour -/

/-- An oracle whose token endpoint answers with an *empty-string*
`access_token` and no `errcode`. -/
def envEmptyTok : Env :=
  { tokenResp := fun _ => .resp { access_token := some "" }, sendResp := fun _ => .resp {} }

/-- **C2** counterexample: the token endpoint replies with `errcode` absent
and the `access_token` field *present* (the empty string), so by the claim
the refresh should succeed; the code fails, because it tests the token with
`if not access_token:` (Python falsiness), not for field presence. -/
theorem refresh_token_empty_token_counterexample :
    envEmptyTok.tokenResp 0 =
      .resp { errcode := none, errmsg := none, access_token := some "", expires_in := none }
    ∧ refresh_token envEmptyTok true 0 {} =
        (.error { message := "Missing access_token in token response" }, { tokenCalls := 1 }) :=
  ⟨rfl, rfl⟩

/-- **C2** (amended): when `_refresh_token` performs the network fetch and the
endpoint returns JSON, it fails with the provider's error exactly when the
response has a truthy (non-zero) `errcode`, or when the `access_token` field
is missing **or empty**; on success it stores the token, sets the expiry to
`now + expires_in` (defaulting to 7200 when `expires_in` is omitted) and
returns the new token. -/
theorem refresh_token_fetch_amended (env : Env) (force : Bool) (now : Int) (w : World)
    (r : TokenResponse)
    (hfetch : ¬ (pyTruthyStrOpt w.st.token = true ∧ force = false
                  ∧ now < w.st.token_expire_time - 30))
    (hr : env.tokenResp w.tokenCalls = .resp r) :
    (pyTruthyIntOpt r.errcode = true →
      refresh_token env force now w =
        (.error { message := "Token refresh failed: " ++ r.errmsg.getD "unknown error",
                  errcode := r.errcode },
         { w with tokenCalls := w.tokenCalls + 1 }))
    ∧ (pyTruthyIntOpt r.errcode = false → pyTruthyStrOpt r.access_token = false →
      refresh_token env force now w =
        (.error { message := "Missing access_token in token response" },
         { w with tokenCalls := w.tokenCalls + 1 }))
    ∧ (∀ t, pyTruthyIntOpt r.errcode = false → r.access_token = some t → t ≠ "" →
      refresh_token env force now w =
        (.ok t,
         { w with st := { token := some t,
                          token_expire_time := now + r.expires_in.getD 7200 },
                  tokenCalls := w.tokenCalls + 1 })) := by
  refine ⟨fun hc => ?_, fun hc ht => ?_, fun t hc ht hne => ?_⟩
  · unfold refresh_token
    rw [if_neg hfetch, hr]
    simp [hc]
  · unfold refresh_token
    rw [if_neg hfetch, hr]
    simp [hc, ht]
  · unfold refresh_token
    rw [if_neg hfetch, hr]
    simp [hc, ht, pyTruthyStrOpt, hne]

/-- Witness for C2 (amended): a successful refresh at `now = 5` with
`expires_in = 600` stores expiry 605, and a provider error 40013 is
surfaced with its code. -/
theorem refresh_token_fetch_amended_witness :
    refresh_token
        { tokenResp := fun _ => .resp { access_token := some "T", expires_in := some 600 },
          sendResp := fun _ => .resp {} } true 5 {} =
      (.ok "T", { st := { token := some "T", token_expire_time := 605 }, tokenCalls := 1 })
    ∧ refresh_token
        { tokenResp := fun _ => .resp { errcode := some 40013, errmsg := some "invalid secret" },
          sendResp := fun _ => .resp {} } false 5 {} =
      (.error { message := "Token refresh failed: invalid secret", errcode := some 40013 },
       { tokenCalls := 1 }) :=
  ⟨(refresh_token_fetch_amended _ true 5 {}
      { access_token := some "T", expires_in := some 600 }
      (by simp [pyTruthyStrOpt]) rfl).2.2 "T" (by decide) rfl (by decide),
   (refresh_token_fetch_amended _ false 5 {}
      { errcode := some 40013, errmsg := some "invalid secret" }
      (by simp [pyTruthyStrOpt]) rfl).1 (by decide)⟩

/-! ## C7: build validation -/

/-- **C7** counterexample: both image fields are *present* on the robot image
build (`image_base64 = ""`, `image_md5 = "x"`), yet the build fails, because
the code tests the fields for Python truthiness, not presence. -/
theorem bot_image_empty_field_counterexample :
    bot_build_payload "image" { image_base64 := some "", image_md5 := some "x" } =
      .error { message := "image_base64 and image_md5 are required for image messages on robots" } :=
  rfl

/-- **C7** (amended): building a `text` payload with an absent or empty
message fails in both client modes; the robot `image` build fails whenever
`image_base64` or `image_md5` is absent or empty, and succeeds (with the
provider-shaped body) when both are present and non-empty. -/
theorem build_validation_amended (agent_id : Int) (defaults : AppDefaults) :
    (∀ d : SendData, pyTruthyStrOpt d.message = false →
      app_build_payload agent_id defaults MESSAGE_TYPE_TEXT d =
        .error { message := "Message content is required for text or markdown messages" }
      ∧ bot_build_payload MESSAGE_TYPE_TEXT d =
        .error { message := "Message content is required for text messages" })
    ∧ (∀ d : SendData,
        pyTruthyStrOpt d.image_base64 = false ∨ pyTruthyStrOpt d.image_md5 = false →
      bot_build_payload MESSAGE_TYPE_IMAGE d =
        .error { message := "image_base64 and image_md5 are required for image messages on robots" })
    ∧ (∀ (d : SendData) (b m : String),
        d.image_base64 = some b → b ≠ "" → d.image_md5 = some m → m ≠ "" →
      bot_build_payload MESSAGE_TYPE_IMAGE d =
        .ok [("msgtype", .str MESSAGE_TYPE_IMAGE),
             (MESSAGE_TYPE_IMAGE, .obj [("base64", .str b), ("md5", .str m)])]) := by
  refine ⟨fun d hm => ⟨?_, ?_⟩, fun d him => ?_, fun d b m hb hbne hm hmne => ?_⟩
  · unfold app_build_payload
    rw [if_pos ⟨Or.inl rfl, hm⟩]
  · unfold bot_build_payload
    rw [if_pos rfl, if_pos hm]
  · unfold bot_build_payload
    rw [if_neg (by decide), if_neg (by decide), if_pos rfl, if_pos him]
  · unfold bot_build_payload
    rw [if_neg (by decide), if_neg (by decide), if_pos rfl,
        if_neg (by simp [hb, hm, pyTruthyStrOpt, hbne, hmne])]
    simp [hb, hm]

/-- Witness for C7 (amended) at concrete inputs: empty message fails both
builders; a complete robot image request builds the exact provider body. -/
theorem build_validation_amended_witness :
    (app_build_payload 7 {} MESSAGE_TYPE_TEXT { message := some "" } =
        .error { message := "Message content is required for text or markdown messages" }
      ∧ bot_build_payload MESSAGE_TYPE_TEXT { message := some "" } =
        .error { message := "Message content is required for text messages" })
    ∧ bot_build_payload MESSAGE_TYPE_IMAGE { image_base64 := some "QUJD" } =
        .error { message := "image_base64 and image_md5 are required for image messages on robots" }
    ∧ bot_build_payload MESSAGE_TYPE_IMAGE
        { image_base64 := some "QUJD", image_md5 := some "900150983cd24fb0" } =
        .ok [("msgtype", .str MESSAGE_TYPE_IMAGE),
             (MESSAGE_TYPE_IMAGE, .obj [("base64", .str "QUJD"),
                                        ("md5", .str "900150983cd24fb0")])] :=
  ⟨(build_validation_amended 7 {}).1 { message := some "" } (by decide),
   (build_validation_amended 7 {}).2.1 { image_base64 := some "QUJD" } (Or.inr (by decide)),
   (build_validation_amended 7 {}).2.2
      { image_base64 := some "QUJD", image_md5 := some "900150983cd24fb0" }
      "QUJD" "900150983cd24fb0" rfl (by decide) rfl (by decide)⟩

/-! ## C1: single retry on retryable errcode -/

/-- A forced refresh never consults the cache: it issues exactly one token
request (and no send request), whatever the reply. -/
theorem refresh_token_force_counts (env : Env) (now : Int) (w : World) :
    (refresh_token env true now w).2.tokenCalls = w.tokenCalls + 1
    ∧ (refresh_token env true now w).2.sendCalls = w.sendCalls := by
  unfold refresh_token
  rw [if_neg (by simp)]
  cases env.tokenResp w.tokenCalls with
  | transport m => exact ⟨rfl, rfl⟩
  | resp r =>
      by_cases hc : pyTruthyIntOpt r.errcode = true
      · simp [hc]
      · by_cases ht : pyTruthyStrOpt r.access_token = false
        · simp [hc, ht]
        · simp [hc, ht]

/-- **C1**: in application mode, when the first send fails with an errcode in
the retryable set `{40014, 42001, 40001}`, the client performs exactly one
forced token refresh (one token request) and exactly one retried send, and the
retried send's outcome — including another retryable errcode — is the final
result, with no further refresh or send; if the forced refresh itself fails,
that failure is final, again with no further send; and a first-send errcode
outside the retryable set is surfaced at once, with no refresh and no retry. -/
theorem app_send_retry_once (env : Env) (agent_id : Int) (defaults : AppDefaults)
    (data : SendData) (now : Int) (w w1 : World) (payload : Payload) (tok : String)
    (e1 : WeWorkError)
    (hmt : data.message_type.getD MESSAGE_TYPE_TEXT ∈ SUPPORTED_MESSAGE_TYPES)
    (hbuild : app_build_payload agent_id defaults
                (data.message_type.getD MESSAGE_TYPE_TEXT) data = .ok payload)
    (hens : ensure_token env now w = (.ok tok, w1))
    (hs1 : handle_send_result (env.sendResp w1.sendCalls) = .error e1) :
    (retryable e1.errcode = false →
      async_send_message env agent_id defaults data now w =
        (.error e1, { w1 with sendCalls := w1.sendCalls + 1 }))
    ∧ (retryable e1.errcode = true →
      ∀ e2 w3,
        refresh_token env true now { w1 with sendCalls := w1.sendCalls + 1 }
          = (.error e2, w3) →
        async_send_message env agent_id defaults data now w = (.error e2, w3)
        ∧ w3.tokenCalls = w1.tokenCalls + 1 ∧ w3.sendCalls = w1.sendCalls + 1)
    ∧ (retryable e1.errcode = true →
      ∀ tok2 w3,
        refresh_token env true now { w1 with sendCalls := w1.sendCalls + 1 }
          = (.ok tok2, w3) →
        async_send_message env agent_id defaults data now w =
          (handle_send_result (env.sendResp w3.sendCalls),
           { w3 with sendCalls := w3.sendCalls + 1 })
        ∧ w3.tokenCalls = w1.tokenCalls + 1 ∧ w3.sendCalls = w1.sendCalls + 1) := by
  refine ⟨fun hret => ?_, fun hret e2 w3 hr3 => ?_, fun hret tok2 w3 hr3 => ?_⟩
  · simp [async_send_message, hmt, hbuild, hens, do_send, hs1, hret]
  · have hcnt := refresh_token_force_counts env now { w1 with sendCalls := w1.sendCalls + 1 }
    rw [congrArg Prod.snd hr3] at hcnt
    refine ⟨?_, hcnt.1, hcnt.2⟩
    simp [async_send_message, hmt, hbuild, hens, do_send, hs1, hret, hr3]
  · have hcnt := refresh_token_force_counts env now { w1 with sendCalls := w1.sendCalls + 1 }
    rw [congrArg Prod.snd hr3] at hcnt
    refine ⟨?_, hcnt.1, hcnt.2⟩
    simp [async_send_message, hmt, hbuild, hens, do_send, hs1, hret, hr3]

/-- A network oracle whose send endpoint always answers errcode 42001 and
whose token endpoint always hands out token `"T2"`. -/
def envRetry : Env :=
  { tokenResp := fun _ => .resp { access_token := some "T2", expires_in := some 7200 },
    sendResp := fun _ => .resp { errcode := some 42001, errmsg := some "access_token expired" } }

/-- Witness for C1: a first send answered 42001 triggers one forced refresh
and one retried send; the retry's 42001 is surfaced as the final failure with
exactly two send requests and one token request issued. -/
theorem app_send_retry_once_witness :
    async_send_message envRetry 1 {} { message := some "hi", to_user := some "u" } 0 wFresh =
      (.error { message := "Message send failed: access_token expired",
                errcode := some 42001 },
       { st := { token := some "T2", token_expire_time := 7200 },
         tokenCalls := 1, sendCalls := 2 }) :=
  ((app_send_retry_once envRetry 1 {} { message := some "hi", to_user := some "u" } 0
      wFresh wFresh
      [("agentid", .int 1), ("msgtype", .str "text"), ("safe", .int 0),
       ("touser", .str "u"), ("text", .obj [("content", .str "hi")])]
      "TOK"
      { message := "Message send failed: access_token expired", errcode := some 42001 }
      (by decide) (by rfl) (by rfl) (by rfl)).2.2 (by decide) "T2"
      { st := { token := some "T2", token_expire_time := 7200 },
        tokenCalls := 1, sendCalls := 1 }
      (by rfl)).1

/-! ## C4: recipient merge

Character-level groundwork about `strip`, `split` and `join`, used to settle
the merge claims. -/

theorem dropWhile_eq_self_of_head (p : Char → Bool) (l : List Char)
    (h : ∀ c, l.head? = some c → p c = false) : l.dropWhile p = l := by
  cases l with
  | nil => rfl
  | cons a t => rw [List.dropWhile_cons, if_neg (by simp [h a rfl])]

theorem stripChars_eq_self (l : List Char)
    (h1 : ∀ c, l.head? = some c → c.isWhitespace = false)
    (h2 : ∀ c, l.getLast? = some c → c.isWhitespace = false) :
    stripChars l = l := by
  unfold stripChars
  rw [dropWhile_eq_self_of_head _ _ h1,
      dropWhile_eq_self_of_head _ _ (fun c hc => h2 c (by rwa [List.head?_reverse] at hc))]
  exact List.reverse_reverse l

theorem stripChars_fix (l : List Char) (h : stripChars l = l) :
    l.dropWhile Char.isWhitespace = l
    ∧ l.reverse.dropWhile Char.isWhitespace = l.reverse := by
  have e1 : (stripChars l).length
      = ((l.dropWhile Char.isWhitespace).reverse.dropWhile Char.isWhitespace).length := by
    unfold stripChars
    rw [List.length_reverse]
  have le1 : ((l.dropWhile Char.isWhitespace).reverse.dropWhile Char.isWhitespace).length
      ≤ (l.dropWhile Char.isWhitespace).length := by
    calc ((l.dropWhile Char.isWhitespace).reverse.dropWhile Char.isWhitespace).length
        ≤ (l.dropWhile Char.isWhitespace).reverse.length :=
          (List.dropWhile_sublist _).length_le
      _ = (l.dropWhile Char.isWhitespace).length := List.length_reverse _
  have le2 : (l.dropWhile Char.isWhitespace).length ≤ l.length :=
    (List.dropWhile_sublist _).length_le
  have hlen : (stripChars l).length = l.length := by rw [h]
  have ha : l.dropWhile Char.isWhitespace = l :=
    (List.dropWhile_sublist _).eq_of_length (by omega)
  refine ⟨ha, ?_⟩
  have hb : ((l.dropWhile Char.isWhitespace).reverse.dropWhile Char.isWhitespace).length
      = (l.dropWhile Char.isWhitespace).reverse.length := by
    rw [List.length_reverse]
    omega
  have hc := (List.dropWhile_sublist
      (l := (l.dropWhile Char.isWhitespace).reverse) Char.isWhitespace).eq_of_length hb
  rwa [ha] at hc

theorem head_not_ws_of_stripChars_fix {l : List Char} (h : stripChars l = l) :
    ∀ c, l.head? = some c → c.isWhitespace = false := by
  intro c hc
  by_contra hw
  have hw2 : c.isWhitespace = true := by simpa using hw
  have h1 := (stripChars_fix l h).1
  cases l with
  | nil => simp at hc
  | cons a t =>
      simp only [List.head?_cons, Option.some.injEq] at hc
      subst hc
      rw [List.dropWhile_cons, if_pos hw2] at h1
      have hle := (List.dropWhile_sublist (l := t) Char.isWhitespace).length_le
      have := congrArg List.length h1
      simp at this
      omega

theorem last_not_ws_of_stripChars_fix {l : List Char} (h : stripChars l = l) :
    ∀ c, l.getLast? = some c → c.isWhitespace = false := by
  intro c hc
  by_contra hw
  have hw2 : c.isWhitespace = true := by simpa using hw
  have h2 := (stripChars_fix l h).2
  have hh : l.reverse.head? = some c := by rw [List.head?_reverse]; exact hc
  cases hr : l.reverse with
  | nil => rw [hr] at hh; simp at hh
  | cons a t =>
      rw [hr] at hh h2
      simp only [List.head?_cons, Option.some.injEq] at hh
      subst hh
      rw [List.dropWhile_cons, if_pos hw2] at h2
      have hle := (List.dropWhile_sublist (l := t) Char.isWhitespace).length_le
      have := congrArg List.length h2
      simp at this
      omega

theorem head?_dropWhile_false (p : Char → Bool) (l : List Char) :
    ∀ c, (l.dropWhile p).head? = some c → p c = false := by
  induction l with
  | nil => intro c hc; simp at hc
  | cons a t ih =>
      intro c hc
      rw [List.dropWhile_cons] at hc
      by_cases hp : p a = true
      · rw [if_pos hp] at hc
        exact ih c hc
      · rw [if_neg hp] at hc
        simp only [List.head?_cons, Option.some.injEq] at hc
        subst hc
        simpa using hp

theorem head?_stripChars_not_ws (l : List Char) :
    ∀ c, (stripChars l).head? = some c → c.isWhitespace = false := by
  intro c hc
  obtain ⟨t, ht⟩ := List.dropWhile_suffix
    (l := (l.dropWhile Char.isWhitespace).reverse) Char.isWhitespace
  have ha : l.dropWhile Char.isWhitespace
      = ((l.dropWhile Char.isWhitespace).reverse.dropWhile Char.isWhitespace).reverse
        ++ t.reverse := by
    have h2 := congrArg List.reverse ht
    simpa [List.reverse_append] using h2.symm
  have hne : ((l.dropWhile Char.isWhitespace).reverse.dropWhile Char.isWhitespace).reverse
      ≠ [] := by
    intro hnil
    rw [show stripChars l
        = ((l.dropWhile Char.isWhitespace).reverse.dropWhile Char.isWhitespace).reverse
        from rfl, hnil] at hc
    simp at hc
  have hhead : (l.dropWhile Char.isWhitespace).head? = some c := by
    rw [ha, List.head?_append_of_ne_nil _ hne]
    exact hc
  exact head?_dropWhile_false _ _ c hhead

theorem getLast?_stripChars_not_ws (l : List Char) :
    ∀ c, (stripChars l).getLast? = some c → c.isWhitespace = false := by
  intro c hc
  rw [show stripChars l
      = ((l.dropWhile Char.isWhitespace).reverse.dropWhile Char.isWhitespace).reverse
      from rfl, List.getLast?_reverse] at hc
  exact head?_dropWhile_false _ _ c hc

theorem stripChars_idem (l : List Char) : stripChars (stripChars l) = stripChars l :=
  stripChars_eq_self _ (head?_stripChars_not_ws l) (getLast?_stripChars_not_ws l)

theorem mem_stripChars_subset {c : Char} {l : List Char} (h : c ∈ stripChars l) :
    c ∈ l := by
  unfold stripChars at h
  rw [List.mem_reverse] at h
  have h2 := (List.dropWhile_sublist _).subset h
  rw [List.mem_reverse] at h2
  exact (List.dropWhile_sublist _).subset h2

theorem pyStrip_idem (s : String) : pyStrip (pyStrip s) = pyStrip s :=
  congrArg String.mk (stripChars_idem s.data)

theorem splitOnP_tokens {α : Type} (p : α → Bool) :
    ∀ (xs : List α), ∀ t ∈ xs.splitOnP p, ∀ c ∈ t, p c = false := by
  intro xs
  induction xs with
  | nil =>
      intro t ht c hc
      rw [List.splitOnP_nil] at ht
      simp only [List.mem_singleton] at ht
      subst ht
      simp at hc
  | cons a xs ih =>
      intro t ht c hc
      rw [List.splitOnP_cons] at ht
      by_cases hp : p a = true
      · rw [if_pos hp] at ht
        rcases List.mem_cons.mp ht with h | h
        · subst h; simp at hc
        · exact ih t h c hc
      · rw [if_neg hp] at ht
        cases hsp : xs.splitOnP p with
        | nil => exact absurd hsp (List.splitOnP_ne_nil p xs)
        | cons h0 tl =>
            rw [hsp, List.modifyHead] at ht
            rcases List.mem_cons.mp ht with h | h
            · subst h
              rcases List.mem_cons.mp hc with h | h
              · subst h; simpa using hp
              · exact ih h0 (by rw [hsp]; exact List.mem_cons_self _ _) c h
            · exact ih t (by rw [hsp]; exact List.mem_cons_of_mem _ h) c hc

theorem mem_splitOn_not_mem {α : Type} [DecidableEq α] (x : α) (xs t : List α)
    (ht : t ∈ xs.splitOn x) : x ∉ t := by
  intro hx
  have h := splitOnP_tokens (fun a => a == x) xs t (by simpa [List.splitOn] using ht) x hx
  simp at h

theorem intercalate_cons₂ {α : Type} (x : α) (a b : List α) (tl : List (List α)) :
    [x].intercalate (a :: b :: tl) = a ++ x :: [x].intercalate (b :: tl) := by
  simp [List.intercalate, List.intersperse_cons_cons, List.flatten]

theorem head?_intercalate_pipe {α : Type} (x : α) (a : List α) (tl : List (List α))
    (ha : a ≠ []) : ([x].intercalate (a :: tl)).head? = a.head? := by
  cases tl with
  | nil => simp [List.intercalate]
  | cons b tl =>
      rw [intercalate_cons₂]
      exact List.head?_append_of_ne_nil _ ha

theorem intercalate_pipe_ne_nil {α : Type} (x : α) (a : List α) (tl : List (List α))
    (ha : a ≠ []) : [x].intercalate (a :: tl) ≠ [] := by
  intro hnil
  have hh := head?_intercalate_pipe x a tl ha
  rw [hnil] at hh
  cases a with
  | nil => exact ha rfl
  | cons c cs => simp at hh

theorem getLast?_intercalate_pipe {α : Type} (x : α) :
    ∀ (tl : List (List α)) (a : List α), (∀ p ∈ a :: tl, p ≠ []) →
      ∃ q ∈ a :: tl, ([x].intercalate (a :: tl)).getLast? = q.getLast? := by
  intro tl
  induction tl with
  | nil =>
      intro a _
      exact ⟨a, by simp, by simp [List.intercalate]⟩
  | cons b tl ih =>
      intro a ha
      obtain ⟨q, hq, heq⟩ := ih b (fun p hp => ha p (List.mem_cons_of_mem _ hp))
      refine ⟨q, List.mem_cons_of_mem _ hq, ?_⟩
      rw [intercalate_cons₂, List.getLast?_append_cons]
      have hR : [x].intercalate (b :: tl) ≠ [] :=
        intercalate_pipe_ne_nil x b tl (ha b (by simp))
      rw [show (x :: [x].intercalate (b :: tl)) = [x] ++ [x].intercalate (b :: tl)
          from rfl, List.getLast?_append_of_ne_nil _ hR]
      exact heq

theorem stripChars_intercalate (parts : List (List Char)) (hne : parts ≠ [])
    (hp : ∀ p ∈ parts, p ≠ [] ∧ stripChars p = p) :
    stripChars (List.intercalate ['|'] parts) = List.intercalate ['|'] parts := by
  cases parts with
  | nil => exact absurd rfl hne
  | cons a tl =>
      apply stripChars_eq_self
      · intro c hc
        rw [show List.intercalate ['|'] (a :: tl) = ['|'].intercalate (a :: tl) from rfl,
            head?_intercalate_pipe '|' a tl (hp a (by simp)).1] at hc
        exact head_not_ws_of_stripChars_fix (hp a (by simp)).2 c hc
      · intro c hc
        obtain ⟨q, hq, heq⟩ :=
          getLast?_intercalate_pipe '|' tl a (fun p hp2 => (hp p hp2).1)
        rw [show List.intercalate ['|'] (a :: tl) = ['|'].intercalate (a :: tl) from rfl,
            heq] at hc
        exact last_not_ws_of_stripChars_fix (hp q hq).2 c hc

theorem pySplit_pyJoin (parts : List String) (hne : parts ≠ [])
    (hp : ∀ p ∈ parts, '|' ∉ p.data) :
    pySplit (pyJoin parts) = parts := by
  unfold pySplit pyJoin
  rw [show (String.mk (List.intercalate ['|'] (parts.map String.data))).data
      = ['|'].intercalate (parts.map String.data) from rfl]
  rw [List.splitOn_intercalate (parts.map String.data) '|'
      (by
        intro l hl
        obtain ⟨p, hp2, rfl⟩ := List.mem_map.mp hl
        exact hp p hp2)
      (by simpa using hne)]
  rw [List.map_map]
  rw [show (String.mk ∘ String.data) = id from rfl, List.map_id]

theorem pyStrip_pyJoin (parts : List String) (hne : parts ≠ [])
    (hp : ∀ p ∈ parts, pyStrip p = p ∧ p ≠ "") :
    pyStrip (pyJoin parts) = pyJoin parts := by
  exact congrArg String.mk
    (stripChars_intercalate (parts.map String.data) (by simpa using hne)
      (by
        intro p hl
        obtain ⟨q, hq, rfl⟩ := List.mem_map.mp hl
        refine ⟨?_, ?_⟩
        · intro hnil
          exact (hp q hq).2 (String.ext hnil)
        · exact congrArg String.data (hp q hq).1))

theorem pyJoin_ne_empty (a : String) (tl : List String) (ha : a ≠ "") :
    pyJoin (a :: tl) ≠ "" := by
  intro hc
  have hd : (pyJoin (a :: tl)).data = [] := congrArg String.data hc
  rw [show (pyJoin (a :: tl)).data
      = ['|'].intercalate (a.data :: tl.map String.data) from rfl] at hd
  exact intercalate_pipe_ne_nil '|' a.data (tl.map String.data)
    (fun h2 => ha (String.ext h2)) hd

/-! Facts about the dedup fold of `_merge_recipient`. -/

theorem merge_fold_mem_src : ∀ (parts acc : List String), ∀ t ∈ parts.foldl merge_step acc,
    t ∈ acc ∨ ∃ p ∈ parts, t = pyStrip p := by
  intro parts
  induction parts with
  | nil => intro acc t h; exact Or.inl h
  | cons p ps ih =>
      intro acc t h
      rw [List.foldl_cons] at h
      rcases ih (merge_step acc p) t h with h2 | h2
      · unfold merge_step at h2
        by_cases hc : pyStrip p ≠ "" ∧ pyStrip p ∉ acc
        · rw [if_pos hc] at h2
          rcases List.mem_append.mp h2 with h3 | h3
          · exact Or.inl h3
          · simp only [List.mem_singleton] at h3
            exact Or.inr ⟨p, by simp, h3⟩
        · rw [if_neg hc] at h2
          exact Or.inl h2
      · obtain ⟨q, hq, he⟩ := h2
        exact Or.inr ⟨q, List.mem_cons_of_mem _ hq, he⟩

theorem merge_fold_inv : ∀ (parts acc : List String),
    (∀ t ∈ acc, pyStrip t = t ∧ t ≠ "") → acc.Nodup →
    (∀ t ∈ parts.foldl merge_step acc, pyStrip t = t ∧ t ≠ "")
    ∧ (parts.foldl merge_step acc).Nodup := by
  intro parts
  induction parts with
  | nil => intro acc h hn; exact ⟨h, hn⟩
  | cons p ps ih =>
      intro acc h hn
      rw [List.foldl_cons]
      apply ih
      · intro t ht
        unfold merge_step at ht
        by_cases hc : pyStrip p ≠ "" ∧ pyStrip p ∉ acc
        · rw [if_pos hc] at ht
          rcases List.mem_append.mp ht with h3 | h3
          · exact h t h3
          · simp only [List.mem_singleton] at h3
            subst h3
            exact ⟨pyStrip_idem p, hc.1⟩
        · rw [if_neg hc] at ht
          exact h t ht
      · unfold merge_step
        by_cases hc : pyStrip p ≠ "" ∧ pyStrip p ∉ acc
        · rw [if_pos hc]
          simp [List.nodup_append, hn, hc.2]
        · rw [if_neg hc]
          exact hn

theorem merge_fold_stable : ∀ (parts acc : List String),
    (∀ p ∈ parts, pyStrip p ∈ acc) → parts.foldl merge_step acc = acc := by
  intro parts
  induction parts with
  | nil => intro acc _; rfl
  | cons p ps ih =>
      intro acc h
      have hstep : merge_step acc p = acc := by
        unfold merge_step
        rw [if_neg]
        intro hc
        exact hc.2 (h p (by simp))
      rw [List.foldl_cons, hstep]
      exact ih acc (fun q hq => h q (List.mem_cons_of_mem _ hq))

theorem merge_fold_fresh : ∀ (parts acc : List String),
    parts.Nodup → (∀ p ∈ parts, pyStrip p = p ∧ p ≠ "") → (∀ p ∈ parts, p ∉ acc) →
    parts.foldl merge_step acc = acc ++ parts := by
  intro parts
  induction parts with
  | nil => intro acc _ _ _; simp
  | cons p ps ih =>
      intro acc hnd hsp hdisj
      have h1 : merge_step acc p = acc ++ [p] := by
        unfold merge_step
        rw [(hsp p (by simp)).1, if_pos ⟨(hsp p (by simp)).2, hdisj p (by simp)⟩]
      rw [List.foldl_cons, h1,
          ih (acc ++ [p]) (List.Nodup.of_cons hnd)
            (fun q hq => hsp q (List.mem_cons_of_mem _ hq))
            (by
              intro q hq hmem
              rcases List.mem_append.mp hmem with h3 | h3
              · exact hdisj q (List.mem_cons_of_mem _ hq) h3
              · simp only [List.mem_singleton] at h3
                subst h3
                exact (List.nodup_cons.mp hnd).1 hq)]
      simp

theorem merge_fold_no_pipe (parts : List String)
    (hparts : ∀ p ∈ parts, '|' ∉ p.data) :
    ∀ t ∈ parts.foldl merge_step [], '|' ∉ t.data := by
  intro t ht
  rcases merge_fold_mem_src parts [] t ht with h | ⟨p, hp, rfl⟩
  · simp at h
  · intro hc
    exact hparts p hp (mem_stripChars_subset hc)

theorem mem_pySplit_no_pipe (s : String) : ∀ p ∈ pySplit s, '|' ∉ p.data := by
  intro p hp
  obtain ⟨q, hq, rfl⟩ := List.mem_map.mp hp
  exact mem_splitOn_not_mem '|' _ q hq

/-- `_merge_recipient` is idempotent: feeding its own output back in (as both
override and default) reproduces the output. -/
theorem merge_recipient_idem (x : Option String) :
    merge_recipient (merge_recipient x x) (merge_recipient x x)
      = merge_recipient x x := by
  cases x with
  | none => rfl
  | some s =>
      by_cases hs : pyStrip s = ""
      · have h1 : merge_recipient (some s) (some s) = some (pyStrip s) := by
          simp [merge_recipient, pyTruthyStrOpt, hs, pyOrStr]
        rw [h1, hs]
        rfl
      · have hmerge : merge_recipient (some s) (some s)
            = some (pyJoin ((pySplit (pyStrip s) ++ pySplit (pyStrip s)).foldl
                merge_step [])) := by
          simp [merge_recipient, pyTruthyStrOpt, hs]
        have hpipe : ∀ p ∈ pySplit (pyStrip s) ++ pySplit (pyStrip s), '|' ∉ p.data := by
          intro p hp
          rcases List.mem_append.mp hp with h | h <;> exact mem_pySplit_no_pipe _ p h
        have hinv := merge_fold_inv (pySplit (pyStrip s) ++ pySplit (pyStrip s)) []
          (by simp) (by simp)
        have hL3 := merge_fold_no_pipe (pySplit (pyStrip s) ++ pySplit (pyStrip s)) hpipe
        rw [hmerge]
        cases hLc : (pySplit (pyStrip s) ++ pySplit (pyStrip s)).foldl merge_step [] with
        | nil => rfl
        | cons a tl =>
            rw [hLc] at hinv hL3
            have hane : a ≠ "" := (hinv.1 a (by simp)).2
            have hrne : pyJoin (a :: tl) ≠ "" := pyJoin_ne_empty a tl hane
            have hstripr : pyStrip (pyJoin (a :: tl)) = pyJoin (a :: tl) :=
              pyStrip_pyJoin (a :: tl) (by simp) hinv.1
            have hsplitr : pySplit (pyStrip (pyJoin (a :: tl))) = a :: tl := by
              rw [hstripr]
              exact pySplit_pyJoin (a :: tl) (by simp) hL3
            have hstep : merge_recipient (some (pyJoin (a :: tl))) (some (pyJoin (a :: tl)))
                = some (pyJoin ((pySplit (pyStrip (pyJoin (a :: tl)))
                    ++ pySplit (pyStrip (pyJoin (a :: tl)))).foldl merge_step [])) := by
              simp [merge_recipient, pyTruthyStrOpt, hstripr, hrne]
            rw [hstep, hsplitr, List.foldl_append,
                merge_fold_fresh (a :: tl) [] hinv.2 hinv.1 (by simp),
                List.nil_append,
                merge_fold_stable (a :: tl) (a :: tl)
                  (fun p hp => by rw [(hinv.1 p hp).1]; exact hp)]

/-- The recipient merge exactly as the claim words it (comparison definition
written from the spec sentence, for the refinement check): split both strings
on `'|'`, trim each token, concatenate override tokens then default tokens,
drop duplicates keeping first occurrences, and rejoin with `'|'`. -/
def claim_merge (override default : String) : String :=
  pyJoin (((pySplit override ++ pySplit default).map pyStrip).foldl
    (fun acc t => if t ∉ acc then acc ++ [t] else acc) [])

/-- The normalization `_merge_recipient` actually performs when both sides
are non-blank: like `claim_merge`, but tokens that are empty after trimming
are dropped as well. -/
def normalized_merge (override default : String) : String :=
  pyJoin (((pySplit override ++ pySplit default).map pyStrip).foldl
    (fun acc t => if t ≠ "" ∧ t ∉ acc then acc ++ [t] else acc) [])

/-- **C4** counterexample: on override `"a||b"` and default `"c"` the code
returns `"a|b|c"` (it drops the token that is empty after trimming), while
the claim's split-trim-dedup-join recipe keeps the empty token and yields
`"a||b|c"`; so the claimed equality fails for this pair of strings. -/
theorem merge_recipient_counterexample :
    merge_recipient (some "a||b") (some "c") = some "a|b|c"
    ∧ claim_merge "a||b" "c" = "a||b|c"
    ∧ merge_recipient (some "a||b") (some "c") ≠ some (claim_merge "a||b" "c") := by
  refine ⟨by rfl, by rfl, by decide⟩

/-- **C4** (amended): when both sides are non-blank after trimming, the merge
equals splitting both trimmed sides on `'|'`, trimming each token, dropping
tokens that are empty after trimming, concatenating override tokens then
default tokens, deduplicating while preserving first-seen order and rejoining
with `'|'`; when at most one side is non-blank, that side is returned trimmed
as a whole (or `none`), with no token-level normalization.  Consequently
`merge("a|b", "b|c") = "a|b|c"`, and the merge is idempotent. -/
theorem merge_recipient_amended :
    (∀ o d : String, pyStrip o ≠ "" → pyStrip d ≠ "" →
      merge_recipient (some o) (some d)
        = some (normalized_merge (pyStrip o) (pyStrip d)))
    ∧ (∀ o d : Option String,
        pyTruthyStrOpt (o.map pyStrip) = false ∨ pyTruthyStrOpt (d.map pyStrip) = false →
        merge_recipient o d = pyOrStr (o.map pyStrip) (d.map pyStrip))
    ∧ merge_recipient (some "a|b") (some "b|c") = some "a|b|c"
    ∧ (∀ x : Option String,
        merge_recipient (merge_recipient x x) (merge_recipient x x)
          = merge_recipient x x) := by
  refine ⟨fun o d ho hd => ?_, fun o d h => ?_, by rfl, merge_recipient_idem⟩
  · simp only [merge_recipient, Option.map_some, Option.getD_some, pyTruthyStrOpt]
    rw [if_pos ⟨by simpa using ho, by simpa using hd⟩]
    unfold normalized_merge
    rw [List.foldl_map]
    rfl
  · simp only [merge_recipient]
    rw [if_neg]
    intro hc
    rcases h with h | h
    · rw [hc.1] at h
      simp at h
    · rw [hc.2] at h
      simp at h

/-- Witness for C4 (amended): the four parts at concrete inputs. -/
theorem merge_recipient_amended_witness :
    merge_recipient (some " a |a") (some "b") = some "a|b"
    ∧ merge_recipient (some "a|a") none = some "a|a"
    ∧ merge_recipient (some "a|b") (some "b|c") = some "a|b|c"
    ∧ merge_recipient (merge_recipient (some "x|x") (some "x|x"))
        (merge_recipient (some "x|x") (some "x|x"))
        = merge_recipient (some "x|x") (some "x|x") :=
  ⟨by
    have h := merge_recipient_amended.1 " a |a" "b" (by decide) (by decide)
    rw [h]
    rfl,
   by
    have h := merge_recipient_amended.2.1 (some "a|a") none (Or.inr (by rfl))
    rw [h]
    rfl,
   merge_recipient_amended.2.2.1,
   merge_recipient_amended.2.2.2 (some "x|x")⟩

/-! ## C5: text payload round-trip and mention fields -/

theorem lookup_append_of_none {β : Type} (a : String) (l₁ l₂ : List (String × β))
    (h : l₁.lookup a = none) : (l₁ ++ l₂).lookup a = l₂.lookup a := by
  induction l₁ with
  | nil => rfl
  | cons x l ih =>
      obtain ⟨k, v⟩ := x
      rw [List.cons_append, List.lookup_cons]
      rw [List.lookup_cons] at h
      cases hk : (a == k)
      · rw [hk] at h
        exact ih h
      · rw [hk] at h
        simp at h

/-- The `"text"` key of an application text payload always resolves to its
final field, whatever recipient fields were inserted before it. -/
theorem lookup_text_app_payload (agent_id : Int) (u p t : Option String) (v : JVal) :
    (((([("agentid", JVal.int agent_id), ("msgtype", JVal.str "text"), ("safe", JVal.int 0)]
        ++ (if pyTruthyStrOpt u = true then [("touser", JVal.str (u.getD ""))] else []))
        ++ (if pyTruthyStrOpt p = true then [("toparty", JVal.str (p.getD ""))] else []))
        ++ (if pyTruthyStrOpt t = true then [("totag", JVal.str (t.getD ""))] else []))
        ++ [("text", v)]).lookup "text" = some v := by
  by_cases hu : pyTruthyStrOpt u = true <;> by_cases hp : pyTruthyStrOpt p = true <;>
    by_cases ht : pyTruthyStrOpt t = true <;>
      simp [hu, hp, ht, List.lookup]

/-- **C5** counterexample: in application mode, building a text payload from
`message = "hi"`, `mentioned_list = "u1|u2"` (and a recipient) produces a body
whose `"text"` object is exactly `{"content": "hi"}` — the mention field is
silently dropped, so the claimed body containing `"mentioned_list":
["u1","u2"]` is not produced in that client mode. -/
theorem app_text_mentions_dropped_counterexample :
    app_build_payload 1 {} "text"
        { message := some "hi", mentioned_list := some "u1|u2", to_user := some "u1" } =
      .ok [("agentid", .int 1), ("msgtype", .str "text"), ("safe", .int 0),
           ("touser", .str "u1"), ("text", .obj [("content", .str "hi")])]
    ∧ List.lookup "mentioned_list" [("content", JScalar.str "hi")] = none :=
  ⟨rfl, rfl⟩

/-- **C5** (amended): the mention fields are honoured by the robot builder
only.  In robot mode, a text payload for `message = "hi"`,
`mentioned_list = "u1|u2"` is exactly the claimed body; `mentioned_list` /
`mentioned_mobile_list` strings are parsed by splitting on `'|'`, trimming
tokens and dropping empty tokens; the field is omitted whenever that parse
yields nothing; and in application mode the `"text"` object of a built text
payload is always exactly `{"content": message}` (mentions are ignored). -/
theorem text_mentions_amended :
    (bot_build_payload "text" { message := some "hi", mentioned_list := some "u1|u2" }
      = .ok [("msgtype", .str "text"),
             ("text", .obj [("content", .str "hi"),
                            ("mentioned_list", .strList ["u1", "u2"])])])
    ∧ (∀ s : String, s ≠ "" →
        split_optional (some s)
          = some (((pySplit s).map pyStrip).filter (fun t => t ≠ "")))
    ∧ split_optional none = none
    ∧ split_optional (some "") = none
    ∧ (∀ d : SendData, pyTruthyStrOpt d.message = true →
        (split_optional d.mentioned_list = none
          ∨ split_optional d.mentioned_list = some []) →
        ∃ item : List (String × JScalar),
          bot_build_payload "text" d
            = .ok [("msgtype", .str "text"), ("text", .obj item)]
          ∧ List.lookup "mentioned_list" item = none)
    ∧ (∀ (agent_id : Int) (defaults : AppDefaults) (d : SendData) (P : Payload),
        app_build_payload agent_id defaults "text" d = .ok P →
        List.lookup "text" P = some (.obj [("content", .str (d.message.getD ""))])) := by
  refine ⟨by rfl, fun s hs => ?_, rfl, rfl, fun d hm hml => ?_, ?_⟩
  · simp [split_optional, pyTruthyStrOpt, hs]
  · rcases hml with hnone | hempty
    · cases hsplit2 : split_optional d.mentioned_mobile_list with
      | none =>
          refine ⟨[("content", .str (d.message.getD ""))], ?_, rfl⟩
          simp [bot_build_payload, MESSAGE_TYPE_TEXT, hm, hnone, hsplit2]
      | some lm =>
          by_cases hlm : lm = []
          · refine ⟨[("content", .str (d.message.getD ""))], ?_, rfl⟩
            simp [bot_build_payload, MESSAGE_TYPE_TEXT, hm, hnone, hsplit2, hlm]
          · refine ⟨[("content", .str (d.message.getD "")),
                     ("mentioned_mobile_list", .strList lm)], ?_, rfl⟩
            simp [bot_build_payload, MESSAGE_TYPE_TEXT, hm, hnone, hsplit2, hlm]
    · cases hsplit2 : split_optional d.mentioned_mobile_list with
      | none =>
          refine ⟨[("content", .str (d.message.getD ""))], ?_, rfl⟩
          simp [bot_build_payload, MESSAGE_TYPE_TEXT, hm, hempty, hsplit2]
      | some lm =>
          by_cases hlm : lm = []
          · refine ⟨[("content", .str (d.message.getD ""))], ?_, rfl⟩
            simp [bot_build_payload, MESSAGE_TYPE_TEXT, hm, hempty, hsplit2, hlm]
          · refine ⟨[("content", .str (d.message.getD "")),
                     ("mentioned_mobile_list", .strList lm)], ?_, rfl⟩
            simp [bot_build_payload, MESSAGE_TYPE_TEXT, hm, hempty, hsplit2, hlm]
  · intro agent_id defaults d P hP
    simp only [app_build_payload, MESSAGE_TYPE_TEXT, MESSAGE_TYPE_MARKDOWN,
      MESSAGE_TYPE_IMAGE] at hP
    split at hP
    · exact absurd hP (by simp)
    · split at hP
      · exact absurd hP (by simp)
      · split at hP
        · injection hP with h
          rw [← h]
          exact lookup_text_app_payload agent_id
            (merge_recipient d.to_user defaults.to_user)
            (merge_recipient d.to_party defaults.to_party)
            (merge_recipient d.to_tag defaults.to_tag)
            (.obj [("content", .str (d.message.getD ""))])
        · next hcond => exact absurd trivial hcond

/-- Witness for C5 (amended): the parse of `"u1|u2"`, the omission of an
all-empty mention list in a robot text payload, and the application text
object at a concrete build. -/
theorem text_mentions_amended_witness :
    split_optional (some "u1|u2") = some ["u1", "u2"]
    ∧ (∃ item : List (String × JScalar),
        bot_build_payload "text" { message := some "hi", mentioned_list := some "|" }
          = .ok [("msgtype", .str "text"), ("text", .obj item)]
        ∧ List.lookup "mentioned_list" item = none)
    ∧ List.lookup "text"
        [("agentid", JVal.int 1), ("msgtype", JVal.str "text"), ("safe", JVal.int 0),
         ("touser", JVal.str "u1"), ("text", JVal.obj [("content", JScalar.str "hi")])]
      = some (.obj [("content", .str "hi")]) := by
  refine ⟨?_, ?_, ?_⟩
  · rw [text_mentions_amended.2.1 "u1|u2" (by decide)]
    rfl
  · exact text_mentions_amended.2.2.2.2.1
      { message := some "hi", mentioned_list := some "|" } (by decide) (Or.inr (by rfl))
  · exact text_mentions_amended.2.2.2.2.2 1 {}
      { message := some "hi", to_user := some "u1" } _ (by rfl)

/-! ## C9: concurrent `ensure_valid` callers and the refresh lock

The asyncio execution of `n` concurrent callers of `_ensure_token` on one
client is modelled as a cooperative interleaving: code between two `await`
points runs atomically, and the scheduler (a list of task indices) picks
which runnable task moves next.  Inside `_refresh_token(force=False)` the
only `await` while holding `self._token_lock` is the `gettoken` request, so a
caller has three phases. -/

/-- A caller is waiting to acquire the lock, suspended on the `gettoken`
request it issued (remembering which request number), or finished. -/
inductive Phase where
  | wantLock : Phase
  | fetching : Nat → Phase
  | done : Except WeWorkError String → Phase

/-- Shared state: the lock, the token cache, the count of token requests
issued so far, and each caller's phase. -/
structure CState (n : Nat) where
  lockHeld : Bool
  cache : AppState
  tokenCalls : Nat
  tasks : Fin n → Phase

/-- All callers start waiting on an empty cache with the lock free. -/
def initCState (n : Nat) : CState n :=
  { lockHeld := false, cache := {}, tokenCalls := 0, tasks := fun _ => .wantLock }

def setTask (tasks : Fin n → Phase) (i : Fin n) (ph : Phase) : Fin n → Phase :=
  fun j => if j = i then ph else tasks j

/-- One cooperative step of caller `i`.  A waiting caller moves only while
the lock is free: it atomically acquires the lock, performs the in-lock
double check — returning the cached token (and releasing) when the cache is
fresh, no `await` separates these — and otherwise issues the `gettoken`
request and suspends holding the lock.  A suspended caller is resumed by its
network reply, which it processes exactly as `_refresh_token` does, updating
the cache only on success, then releases the lock and finishes. -/
def taskStep (env : Env) (now : Int) (s : CState n) (i : Fin n) : CState n :=
  match s.tasks i with
  | .done _ => s
  | .wantLock =>
      if s.lockHeld then s
      else if cache_fresh s.cache now = true then
        { s with tasks := setTask s.tasks i (.done (.ok (s.cache.token.getD ""))) }
      else
        { s with lockHeld := true, tokenCalls := s.tokenCalls + 1,
                 tasks := setTask s.tasks i (.fetching s.tokenCalls) }
  | .fetching idx =>
      match env.tokenResp idx with
      | .transport m =>
          { s with lockHeld := false,
                   tasks := setTask s.tasks i
                     (.done (.error { message := "Failed to refresh token: " ++ m })) }
      | .resp r =>
          if pyTruthyIntOpt r.errcode = true then
            { s with lockHeld := false,
                     tasks := setTask s.tasks i
                       (.done (.error { message := "Token refresh failed: "
                                          ++ r.errmsg.getD "unknown error",
                                        errcode := r.errcode })) }
          else if pyTruthyStrOpt r.access_token = false then
            { s with lockHeld := false,
                     tasks := setTask s.tasks i
                       (.done (.error { message := "Missing access_token in token response" })) }
          else
            { s with lockHeld := false,
                     cache := { token := r.access_token,
                                token_expire_time := now + r.expires_in.getD 7200 },
                     tasks := setTask s.tasks i
                       (.done (.ok (r.access_token.getD ""))) }

/-- Run a schedule (a list of task indices; a scheduled task that cannot
move is a no-op). -/
def runSched (env : Env) (now : Int) (sched : List (Fin n)) (s : CState n) : CState n :=
  sched.foldl (taskStep env now) s

/-- Mutual exclusion: at most one caller is suspended inside the guarded
region, and none is while the lock is free. -/
def MutexInv (s : CState n) : Prop :=
  (∀ i j : Fin n, (∃ a, s.tasks i = Phase.fetching a) →
    (∃ b, s.tasks j = Phase.fetching b) → i = j)
  ∧ (s.lockHeld = false → ∀ (i : Fin n) (a : Nat), s.tasks i ≠ Phase.fetching a)

theorem setTask_same (tasks : Fin n → Phase) (i : Fin n) (ph : Phase) :
    setTask tasks i ph i = ph := by
  simp [setTask]

theorem setTask_other (tasks : Fin n → Phase) (i j : Fin n) (ph : Phase)
    (h : j ≠ i) : setTask tasks i ph j = tasks j := by
  simp [setTask, h]

/-! Step-equation lemmas for `taskStep`, one per branch. -/

theorem taskStep_done (env : Env) (now : Int) (s : CState n) (i : Fin n)
    (r : Except WeWorkError String) (h : s.tasks i = .done r) :
    taskStep env now s i = s := by
  simp [taskStep, h]

theorem taskStep_wait (env : Env) (now : Int) (s : CState n) (i : Fin n)
    (h : s.tasks i = .wantLock) (hl : s.lockHeld = true) :
    taskStep env now s i = s := by
  simp [taskStep, h, hl]

theorem taskStep_hit (env : Env) (now : Int) (s : CState n) (i : Fin n)
    (h : s.tasks i = .wantLock) (hl : s.lockHeld = false)
    (hf : cache_fresh s.cache now = true) :
    taskStep env now s i
      = { s with tasks := setTask s.tasks i (.done (.ok (s.cache.token.getD ""))) } := by
  simp [taskStep, h, hl, hf]

theorem taskStep_acquire (env : Env) (now : Int) (s : CState n) (i : Fin n)
    (h : s.tasks i = .wantLock) (hl : s.lockHeld = false)
    (hf : cache_fresh s.cache now = false) :
    taskStep env now s i
      = { s with lockHeld := true, tokenCalls := s.tokenCalls + 1,
                 tasks := setTask s.tasks i (.fetching s.tokenCalls) } := by
  simp [taskStep, h, hl, hf]

theorem taskStep_transport (env : Env) (now : Int) (s : CState n) (i : Fin n)
    (idx : Nat) (m : String) (h : s.tasks i = .fetching idx)
    (hr : env.tokenResp idx = .transport m) :
    taskStep env now s i
      = { s with lockHeld := false,
                 tasks := setTask s.tasks i
                   (.done (.error { message := "Failed to refresh token: " ++ m })) } := by
  simp [taskStep, h, hr]

theorem taskStep_err (env : Env) (now : Int) (s : CState n) (i : Fin n)
    (idx : Nat) (r : TokenResponse) (h : s.tasks i = .fetching idx)
    (hr : env.tokenResp idx = .resp r) (hc : pyTruthyIntOpt r.errcode = true) :
    taskStep env now s i
      = { s with lockHeld := false,
                 tasks := setTask s.tasks i
                   (.done (.error { message := "Token refresh failed: "
                                      ++ r.errmsg.getD "unknown error",
                                    errcode := r.errcode })) } := by
  simp [taskStep, h, hr, hc]

theorem taskStep_missing (env : Env) (now : Int) (s : CState n) (i : Fin n)
    (idx : Nat) (r : TokenResponse) (h : s.tasks i = .fetching idx)
    (hr : env.tokenResp idx = .resp r) (hc : pyTruthyIntOpt r.errcode = false)
    (ht : pyTruthyStrOpt r.access_token = false) :
    taskStep env now s i
      = { s with lockHeld := false,
                 tasks := setTask s.tasks i
                   (.done (.error { message := "Missing access_token in token response" })) } := by
  simp [taskStep, h, hr, hc, ht]

theorem taskStep_store (env : Env) (now : Int) (s : CState n) (i : Fin n)
    (idx : Nat) (r : TokenResponse) (h : s.tasks i = .fetching idx)
    (hr : env.tokenResp idx = .resp r) (hc : pyTruthyIntOpt r.errcode = false)
    (ht : pyTruthyStrOpt r.access_token = true) :
    taskStep env now s i
      = { s with lockHeld := false,
                 cache := { token := r.access_token,
                            token_expire_time := now + r.expires_in.getD 7200 },
                 tasks := setTask s.tasks i (.done (.ok (r.access_token.getD ""))) } := by
  simp [taskStep, h, hr, hc, ht]

theorem mutexInv_step (env : Env) (now : Int) (s : CState n) (i : Fin n)
    (h : MutexInv s) : MutexInv (taskStep env now s i) := by
  cases hti : s.tasks i with
  | done r =>
      rw [taskStep_done env now s i r hti]
      exact h
  | wantLock =>
      cases hl : s.lockHeld with
      | true =>
          rw [taskStep_wait env now s i hti hl]
          exact h
      | false =>
          have hnofetch := h.2 hl
          cases hf : cache_fresh s.cache now with
          | false =>
              rw [taskStep_acquire env now s i hti hl hf]
              constructor
              · intro j k hj hk
                obtain ⟨a, ha⟩ := hj
                obtain ⟨b, hb⟩ := hk
                by_cases hji : j = i
                · by_cases hki : k = i
                  · rw [hji, hki]
                  · simp [setTask, hki] at hb
                    exact absurd hb (hnofetch k b)
                · simp [setTask, hji] at ha
                  exact absurd ha (hnofetch j a)
              · intro hlf
                simp at hlf
          | true =>
              rw [taskStep_hit env now s i hti hl hf]
              constructor
              · intro j k hj hk
                obtain ⟨a, ha⟩ := hj
                by_cases hji : j = i
                · subst hji
                  simp [setTask] at ha
                · simp [setTask, hji] at ha
                  exact absurd ha (hnofetch j a)
              · intro _ j a
                by_cases hji : j = i
                · subst hji
                  simp [setTask]
                · simp [setTask, hji]
                  exact hnofetch j a
  | fetching idx =>
      have hstep : ∀ (cache2 : AppState) (res : Except WeWorkError String),
          MutexInv { s with lockHeld := false, cache := cache2,
                            tasks := setTask s.tasks i (.done res) } := by
        intro cache2 res
        constructor
        · intro j k hj hk
          obtain ⟨a, ha⟩ := hj
          obtain ⟨b, hb⟩ := hk
          by_cases hji : j = i
          · subst hji
            simp [setTask] at ha
          · by_cases hki : k = i
            · subst hki
              simp [setTask] at hb
            · simp [setTask, hji] at ha
              simp [setTask, hki] at hb
              exact h.1 j k ⟨a, ha⟩ ⟨b, hb⟩
        · intro _ j a
          by_cases hji : j = i
          · subst hji
            simp [setTask]
          · simp [setTask, hji]
            intro hcj
            exact hji (h.1 j i ⟨a, hcj⟩ ⟨idx, hti⟩)
      cases hrr : env.tokenResp idx with
      | transport m =>
          rw [taskStep_transport env now s i idx m hti hrr]
          exact hstep s.cache _
      | resp r =>
          cases hcc : pyTruthyIntOpt r.errcode with
          | true =>
              rw [taskStep_err env now s i idx r hti hrr hcc]
              exact hstep s.cache _
          | false =>
              cases htt : pyTruthyStrOpt r.access_token with
              | false =>
                  rw [taskStep_missing env now s i idx r hti hrr hcc htt]
                  exact hstep s.cache _
              | true =>
                  rw [taskStep_store env now s i idx r hti hrr hcc htt]
                  exact hstep _ _

/-- The success-sharing invariant for `n` concurrent `ensure_valid` callers
starting on an empty cache, when the first token request succeeds with token
`t` and lifetime `e` (> 30): either nothing has happened yet, or the single
first fetch is in flight, or the token is cached and every finished caller
got `t` — in all cases at most one token request was ever issued. -/
def ShareInv (now : Int) (t : String) (e : Int) (s : CState n) : Prop :=
  (s.tokenCalls = 0 ∧ s.lockHeld = false ∧ s.cache = {}
    ∧ ∀ i : Fin n, s.tasks i = Phase.wantLock)
  ∨ (s.tokenCalls = 1 ∧ s.lockHeld = true ∧ s.cache = {}
    ∧ ∃ i : Fin n, s.tasks i = Phase.fetching 0
        ∧ ∀ j : Fin n, j ≠ i → s.tasks j = Phase.wantLock)
  ∨ (s.tokenCalls = 1 ∧ s.lockHeld = false
    ∧ s.cache = { token := some t, token_expire_time := now + e }
    ∧ ∀ i : Fin n, s.tasks i = Phase.wantLock ∨ s.tasks i = Phase.done (.ok t))

theorem shareInv_step (env : Env) (now : Int) (t : String) (e : Int)
    (r0 : TokenResponse) (hr : env.tokenResp 0 = .resp r0)
    (hc : pyTruthyIntOpt r0.errcode = false) (ht : r0.access_token = some t)
    (htne : t ≠ "") (he : r0.expires_in.getD 7200 = e) (hgt : 30 < e)
    (s : CState n) (i : Fin n) (h : ShareInv now t e s) :
    ShareInv now t e (taskStep env now s i) := by
  have hfreshF : cache_fresh ({} : AppState) now = false := rfl
  have hfreshT : cache_fresh { token := some t, token_expire_time := now + e } now
      = true := by
    simp [cache_fresh, pyTruthyStrOpt, htne]
    omega
  rcases h with ⟨h0, hl, hcache, htasks⟩ | ⟨h0, hl, hcache, i0, hf0, hrest⟩
    | ⟨h0, hl, hcache, htasks⟩
  · rw [taskStep_acquire env now s i (htasks i) hl (by rw [hcache]; exact hfreshF)]
    refine Or.inr (Or.inl ⟨by simp [h0], by simp, by simp [hcache], i, ?_, ?_⟩)
    · simp [setTask, h0]
    · intro j hj
      simp [setTask, hj]
      exact htasks j
  · by_cases hii : i = i0
    · subst hii
      rw [taskStep_store env now s i 0 r0 hf0 hr hc
          (by simp [pyTruthyStrOpt, ht, htne])]
      refine Or.inr (Or.inr ⟨by simp [h0], by simp, by simp [ht, he], ?_⟩)
      intro j
      by_cases hji : j = i
      · subst hji
        right
        simp [setTask, ht]
      · left
        simp [setTask, hji]
        exact hrest j hji
    · rw [taskStep_wait env now s i (hrest i hii) hl]
      exact Or.inr (Or.inl ⟨h0, hl, hcache, i0, hf0, hrest⟩)
  · rcases htasks i with hw | hd
    · rw [taskStep_hit env now s i hw hl (by rw [hcache]; exact hfreshT)]
      refine Or.inr (Or.inr ⟨by simp [h0], by simp [hl], by simp [hcache], ?_⟩)
      intro j
      by_cases hji : j = i
      · subst hji
        right
        simp [setTask, hcache]
      · simp [setTask, hji]
        exact htasks j
    · rw [taskStep_done env now s i _ hd]
      exact Or.inr (Or.inr ⟨h0, hl, hcache, htasks⟩)

theorem runSched_mutex (env : Env) (now : Int) :
    ∀ (sched : List (Fin n)) (s : CState n),
      MutexInv s → MutexInv (runSched env now sched s) := by
  intro sched
  induction sched with
  | nil => intro s h; exact h
  | cons i rest ih =>
      intro s h
      exact ih (taskStep env now s i) (mutexInv_step env now s i h)

theorem runSched_share (env : Env) (now : Int) (t : String) (e : Int)
    (r0 : TokenResponse) (hr : env.tokenResp 0 = .resp r0)
    (hc : pyTruthyIntOpt r0.errcode = false) (ht : r0.access_token = some t)
    (htne : t ≠ "") (he : r0.expires_in.getD 7200 = e) (hgt : 30 < e) :
    ∀ (sched : List (Fin n)) (s : CState n),
      ShareInv now t e s → ShareInv now t e (runSched env now sched s) := by
  intro sched
  induction sched with
  | nil => intro s h; exact h
  | cons i rest ih =>
      intro s h
      exact ih (taskStep env now s i)
        (shareInv_step env now t e r0 hr hc ht htne he hgt s i h)

theorem mutexInv_init (n : Nat) : MutexInv (initCState n) := by
  constructor
  · intro i j hi _
    obtain ⟨a, ha⟩ := hi
    simp [initCState] at ha
  · intro _ i a
    simp [initCState]

theorem shareInv_init (now : Int) (t : String) (e : Int) (n : Nat) :
    ShareInv now t e (initCState n) :=
  Or.inl ⟨rfl, rfl, rfl, fun _ => rfl⟩

/-- Token endpoint whose first request fails with errcode 40013 and whose
later requests succeed with token `"T"`. -/
def envFailThenOk : Env :=
  { tokenResp := fun k =>
      if k = 0 then .resp { errcode := some 40013, errmsg := some "invalid secret" }
      else .resp { access_token := some "T" },
    sendResp := fun _ => .resp {} }

/-- **C9** counterexample: two concurrent `ensure_valid` callers on an empty
cache, where the first refresh fails with a provider error.  Under the legal
schedule `[0, 1, 0, 1, 1]` (caller 1 tries to run while caller 0 holds the
lock, then resumes after caller 0 failed) the waiting caller re-checks the
still-empty cache and issues its *own* network refresh: two token requests
are made and the callers observe different results — refuting "exactly one
network refresh ... every waiting caller observing the single resulting token
(or its single failure)". -/
theorem concurrent_refresh_counterexample :
    (runSched envFailThenOk 0 [0, 1, 0, 1, 1] (initCState 2)).tokenCalls = 2
    ∧ (runSched envFailThenOk 0 [0, 1, 0, 1, 1] (initCState 2)).tasks 0
        = Phase.done (.error { message := "Token refresh failed: invalid secret",
                               errcode := some 40013 })
    ∧ (runSched envFailThenOk 0 [0, 1, 0, 1, 1] (initCState 2)).tasks 1
        = Phase.done (.ok "T") :=
  ⟨rfl, rfl, rfl⟩

/-- **C9** (amended): under any interleaving of any number of concurrent
`ensure_valid` callers, at most one token request is ever in flight at a time
(the lock's mutual exclusion); and when the cache starts empty and the first
token request *succeeds* (non-zero-free errcode, non-empty token `t`,
lifetime above the 30-second margin), the whole run issues at most one token
request, and if every caller has finished then exactly one request was made
and every caller received that same token `t`.  (When a refresh fails, only
its issuer observes the failure; each remaining waiter re-checks and issues
its own refresh — see the counterexample.) -/
theorem concurrent_refresh_amended :
    (∀ (env : Env) (now : Int) (n : Nat) (sched : List (Fin n)),
      MutexInv (runSched env now sched (initCState n)))
    ∧ (∀ (env : Env) (now : Int) (t : String) (e : Int) (r0 : TokenResponse)
        (n : Nat) (sched : List (Fin n)),
        env.tokenResp 0 = .resp r0 → pyTruthyIntOpt r0.errcode = false →
        r0.access_token = some t → t ≠ "" → r0.expires_in.getD 7200 = e → 30 < e →
        ShareInv now t e (runSched env now sched (initCState n))
        ∧ ((∀ i : Fin n, ∃ res, (runSched env now sched (initCState n)).tasks i
              = Phase.done res) → 0 < n →
            (runSched env now sched (initCState n)).tokenCalls = 1
            ∧ ∀ (i : Fin n) (res : Except WeWorkError String),
                (runSched env now sched (initCState n)).tasks i = Phase.done res →
                res = .ok t)) := by
  constructor
  · intro env now n sched
    exact runSched_mutex env now sched (initCState n) (mutexInv_init n)
  · intro env now t e r0 n sched hr hc ht htne he hgt
    have hshare := runSched_share env now t e r0 hr hc ht htne he hgt sched
      (initCState n) (shareInv_init now t e n)
    refine ⟨hshare, fun hdone hn => ?_⟩
    rcases hshare with ⟨_, _, _, htasks⟩ | ⟨_, _, _, i0, hf0, _⟩ | ⟨h0, _, _, htasks⟩
    · obtain ⟨res, hres⟩ := hdone ⟨0, hn⟩
      rw [htasks ⟨0, hn⟩] at hres
      exact absurd hres (by simp)
    · obtain ⟨res, hres⟩ := hdone i0
      rw [hf0] at hres
      exact absurd hres (by simp)
    · refine ⟨h0, fun i res hres => ?_⟩
      rcases htasks i with hw | hd
      · rw [hw] at hres
        exact absurd hres (by simp)
      · rw [hd] at hres
        injection hres with h2
        exact h2.symm

/-- Token endpoint that always succeeds with token `"T"`. -/
def envTokOk : Env :=
  { tokenResp := fun _ => .resp { access_token := some "T" },
    sendResp := fun _ => .resp {} }

/-- Witness for C9 (amended): two callers, schedule `[0, 0, 1]` — caller 0
fetches and stores `"T"`, caller 1 then hits the fresh cache; the run makes
exactly one token request and both callers end with `"T"`. -/
theorem concurrent_refresh_amended_witness :
    MutexInv (runSched envTokOk 0 [0, 0, 1] (initCState 2))
    ∧ ShareInv 0 "T" 7200 (runSched envTokOk 0 [0, 0, 1] (initCState 2))
    ∧ (runSched envTokOk 0 [0, 0, 1] (initCState 2)).tokenCalls = 1
    ∧ ∀ (i : Fin 2) (res : Except WeWorkError String),
        (runSched envTokOk 0 [0, 0, 1] (initCState 2)).tasks i = Phase.done res →
        res = .ok "T" := by
  have h1 := concurrent_refresh_amended.1 envTokOk 0 2 [0, 0, 1]
  have h2 := concurrent_refresh_amended.2 envTokOk 0 "T" 7200
    { access_token := some "T" } 2 [0, 0, 1] rfl rfl rfl (by decide) rfl (by decide)
  have hdone : ∀ i : Fin 2,
      ∃ res, (runSched envTokOk 0 [0, 0, 1] (initCState 2)).tasks i
        = Phase.done res := by
    intro i
    fin_cases i
    · exact ⟨.ok "T", rfl⟩
    · exact ⟨.ok "T", rfl⟩
  exact ⟨h1, h2.1, (h2.2 hdone (by decide)).1, (h2.2 hdone (by decide)).2⟩
